import Mathlib

/-!
Verification development for the Asana-to-Google-Drive backup agent
(`src/index.js`).  The JavaScript source is shallowly embedded below:
pure computations become Lean functions, awaited external HTTP calls
become explicit function parameters or state-passing, and JavaScript
truthiness on optional strings is modelled explicitly (`undefined` and
`""` are falsy, every other string is truthy).
-/

namespace AsanaBackup

/-- JavaScript `x || d` for an optional string `x`: `undefined`/absent and
the empty string are falsy, so the default is used for both. -/
def jsOr : Option String → String → String
  | none, d => d
  | some s, d => if s = "" then d else s

/-- JavaScript truthiness of an optional string (used by `while (offset)`
and `!!value`): `undefined` and `""` are falsy. -/
def truthy : Option String → Bool
  | none => false
  | some s => s != ""

theorem jsOr_empty_default (o : Option String) : jsOr o "" = o.getD "" := by
  cases o with
  | none => rfl
  | some s =>
    simp only [jsOr, Option.getD_some]
    split <;> simp_all

/-! ## Data model (Asana objects, as selected by the `opt_fields` params) -/

structure TaskAssignee where
  name : String
deriving DecidableEq, Repr

structure TaskTag where
  name : String
deriving DecidableEq, Repr

structure Task where
  name : Option String
  completed : Bool
  completed_at : Option String
  due_on : Option String
  due_at : Option String
  assignee : Option TaskAssignee
  notes : Option String
  tags : Option (List TaskTag)
  created_at : Option String
  modified_at : Option String
  permalink_url : Option String
deriving DecidableEq, Repr

structure ProjectOwner where
  name : String
deriving DecidableEq, Repr

structure Project where
  gid : String
  name : String
  created_at : String
  modified_at : String
  archived : Bool
  notes : Option String
  owner : Option ProjectOwner
deriving DecidableEq, Repr

/-! ## Spreadsheet construction (`createTasksSpreadsheet`) -/

/-- `task.tags?.map(t => t.name).join(', ')`: `undefined` when `tags` is
absent, otherwise the comma-and-space join of the tag names. -/
def tagsJoined (t : Task) : Option String :=
  t.tags.map (fun ts => String.intercalate ", " (ts.map TaskTag.name))

/-- One row of the Tasks tab, per `tasks.map(task => [...])` in
`createTasksSpreadsheet` (src/index.js lines 225-236). -/
def taskRow (t : Task) : List String :=
  [jsOr t.name "",
   if t.completed then "Completed" else "Incomplete",
   jsOr (t.assignee.map TaskAssignee.name) "Unassigned",
   jsOr t.due_on (jsOr t.due_at ""),
   jsOr t.completed_at "",
   jsOr (tagsJoined t) "",
   jsOr t.notes "",
   jsOr t.permalink_url "",
   jsOr t.created_at "",
   jsOr t.modified_at ""]

/-- The fixed header row of the Tasks tab. -/
def headers : List String :=
  ["Task Name", "Status", "Assignee", "Due Date",
   "Completed Date", "Tags", "Notes", "URL",
   "Created At", "Modified At"]

/-- A spreadsheet cell value: the source writes both strings and numbers
(the three task-count rows) with `valueInputOption: RAW`. -/
inductive Cell where
  | s (v : String)
  | n (v : Nat)
deriving DecidableEq, Repr

/-- The Project Info tab rows (src/index.js lines 249-261); `now` stands
for `new Date().toISOString()` taken at the write. -/
def projectInfoRows (p : Project) (tasks : List Task) (now : String) : List (List Cell) :=
  [[Cell.s "Project Name", Cell.s p.name],
   [Cell.s "Project ID", Cell.s p.gid],
   [Cell.s "Created At", Cell.s p.created_at],
   [Cell.s "Modified At", Cell.s p.modified_at],
   [Cell.s "Owner", Cell.s (jsOr (p.owner.map ProjectOwner.name) "N/A")],
   [Cell.s "Archived", Cell.s (if p.archived then "Yes" else "No")],
   [Cell.s "Notes", Cell.s (jsOr p.notes "")],
   [Cell.s "Backup Date", Cell.s now],
   [Cell.s "Total Tasks", Cell.n tasks.length],
   [Cell.s "Completed Tasks", Cell.n (tasks.filter (fun t => t.completed)).length],
   [Cell.s "Incomplete Tasks", Cell.n (tasks.filter (fun t => !t.completed)).length]]

/-- The observable effects of `createTasksSpreadsheet`: the create request
(title, tab titles, frozen first row), the move into the folder, and the
two value writes.  The final `batchUpdate` is pure cell formatting
(header colors are floating-point fractions) and is recorded only by the
resize bounds it sends. -/
structure SheetsEffects where
  title : String
  sheetTitles : List String
  frozenFirstSheetRows : Nat
  movedToFolder : String
  tasksRange : String
  tasksValues : List (List String)
  infoRange : String
  infoValues : List (List Cell)
  autoResizeColsUpTo : Nat
deriving DecidableEq, Repr

/-- Shallow embedding of `createTasksSpreadsheet(fileName, folderId,
project, tasks)` (src/index.js lines 184-308), with `now` the backup
timestamp written into the Project Info tab. -/
def createTasksSpreadsheet (fileName folderId : String) (project : Project)
    (tasks : List Task) (now : String) : SheetsEffects :=
  { title := fileName
    sheetTitles := ["Tasks", "Project Info"]
    frozenFirstSheetRows := 1
    movedToFolder := folderId
    tasksRange := "Tasks!A1"
    tasksValues := headers :: tasks.map taskRow
    infoRange := "Project Info!A1"
    infoValues := projectInfoRows project tasks now
    autoResizeColsUpTo := 10 }

/-! ## Spec-side row projections (from the claims' words, for refinement
comparison).  Here "present" means the field is present, even when its
value is the empty string. -/

/-- Modelled from the claim's words (C3): name (empty if absent),
Completed/Incomplete, assignee name or literal Unassigned, date-only due
field if present else date-time due field else empty, completion
timestamp or empty, joined tag names or empty, notes or empty, permanent
URL or empty, creation timestamp or empty, modification timestamp or
empty. -/
def specTaskRow (t : Task) : List String :=
  [t.name.getD "",
   if t.completed then "Completed" else "Incomplete",
   (t.assignee.map TaskAssignee.name).getD "Unassigned",
   t.due_on.getD (t.due_at.getD ""),
   t.completed_at.getD "",
   (tagsJoined t).getD "",
   t.notes.getD "",
   t.permalink_url.getD "",
   t.created_at.getD "",
   t.modified_at.getD ""]

/-- Modelled from the claim's words (C8): the 11 key/value rows with the
owner name taken whenever an owner is present. -/
def specProjectInfoRows (p : Project) (tasks : List Task) (now : String) : List (List Cell) :=
  [[Cell.s "Project Name", Cell.s p.name],
   [Cell.s "Project ID", Cell.s p.gid],
   [Cell.s "Created At", Cell.s p.created_at],
   [Cell.s "Modified At", Cell.s p.modified_at],
   [Cell.s "Owner", Cell.s ((p.owner.map ProjectOwner.name).getD "N/A")],
   [Cell.s "Archived", Cell.s (if p.archived then "Yes" else "No")],
   [Cell.s "Notes", Cell.s (p.notes.getD "")],
   [Cell.s "Backup Date", Cell.s now],
   [Cell.s "Total Tasks", Cell.n tasks.length],
   [Cell.s "Completed Tasks", Cell.n (tasks.filter (fun t => t.completed)).length],
   [Cell.s "Incomplete Tasks", Cell.n (tasks.filter (fun t => !t.completed)).length]]

/-! ## Backup orchestrator (`app.post('/backup-asana')` and
`createProjectBackup`).  The two awaited external operations — the task
fetch and the Drive/Sheets work done for one project — are passed in as
functions returning `Except String`, an error value standing for a
thrown exception carrying that message. -/

/-- A per-project outcome, as pushed onto `backupResults`: either the
success object built by `createProjectBackup` or the failure object built
in the `catch` block. -/
inductive BackupResult where
  | success (project : String) (tasksCount : Nat)
      (folderId spreadsheetId timestamp : String)
  | failed (project : String) (error : String)
deriving DecidableEq, Repr

def BackupResult.project : BackupResult → String
  | .success p .. => p
  | .failed p _ => p

def BackupResult.status : BackupResult → String
  | .success .. => "success"
  | .failed .. => "failed"

structure Summary where
  timestamp : String
  totalProjects : Nat
  successful : Nat
  failed : Nat
  results : List BackupResult
deriving DecidableEq, Repr

/-- The type of the awaited Drive/Sheets work of one project's backup:
given the folder name and file name computed by `createProjectBackup`,
either the `(folderId, spreadsheetId)` pair or a thrown error message. -/
abbrev BackupOps := String → String → Project → List Task → Except String (String × String)

/-- Shallow embedding of `createProjectBackup(project, tasks)`
(src/index.js lines 126-151): computes the folder name
`"<name> - Asana Backup"` and the file name `"Backup_<date part of
now>"`, runs the Drive/Sheets work, and on an inner error rethrows
`"Failed to backup <name>: <msg>"`. -/
def createProjectBackup (ops : BackupOps) (now : String) (p : Project)
    (tasks : List Task) : Except String BackupResult :=
  let folderName := p.name ++ " - Asana Backup"
  let timestamp := (now.splitOn "T").headD ""
  let fileName := "Backup_" ++ timestamp
  match ops folderName fileName p tasks with
  | .ok ids => .ok (BackupResult.success p.name tasks.length ids.1 ids.2 timestamp)
  | .error m => .error ("Failed to backup " ++ p.name ++ ": " ++ m)

/-- One iteration of the `for (const project of projects)` loop body with
its `try`/`catch`: fetch the tasks, build the backup, and turn any thrown
message into a failed `BackupResult`. -/
def processProject (fetch : Project → Except String (List Task))
    (ops : BackupOps) (now : String) (p : Project) : BackupResult :=
  match fetch p with
  | .error m => BackupResult.failed p.name m
  | .ok tasks =>
    match createProjectBackup ops now p tasks with
    | .ok r => r
    | .error m => BackupResult.failed p.name m

/-- The `/backup-asana` handler's loop and summary assembly
(src/index.js lines 38-63), after the project list has been fetched. -/
def runBackup (fetch : Project → Except String (List Task)) (ops : BackupOps)
    (now : String) (projects : List Project) : Summary :=
  let results := projects.map (processProject fetch ops now)
  { timestamp := now
    totalProjects := projects.length
    successful := (results.filter (fun r => r.status == "success")).length
    failed := (results.filter (fun r => r.status == "failed")).length
    results := results }

/-! ## Task pagination (`fetchProjectTasks`, src/index.js lines 98-123).
The source API is a function from the request's offset (absent on the
first request) to a response; the loop keeps the running task list and we
additionally log every request issued, with its `limit` parameter. -/

/-- One response of the task-listing endpoint: the task page and
`next_page?.offset`. -/
structure TaskPage where
  data : List Task
  nextOffset : Option String
deriving DecidableEq, Repr

/-- One request issued by the loop: the `offset` param (absent on the
first request) and the `limit` param. -/
structure TaskRequest where
  offset : Option String
  limit : Nat
deriving DecidableEq, Repr

/-- The `do`/`while (offset)` loop of `fetchProjectTasks`.  `fuel` bounds
the number of iterations so the embedding is total; every theorem below
supplies enough fuel for the whole page sequence. -/
def fetchTasksGo (respond : Option String → TaskPage) :
    Nat → Option String → List Task × List TaskRequest
  | 0, _ => ([], [])
  | fuel + 1, offset =>
    let req : TaskRequest := { offset := offset, limit := 100 }
    let page := respond offset
    let newOffset := page.nextOffset
    if truthy newOffset then
      let rest := fetchTasksGo respond fuel newOffset
      (page.data ++ rest.1, req :: rest.2)
    else
      (page.data, [req])

/-- `fetchProjectTasks`: run the loop from the initial `offset = null`. -/
def fetchProjectTasks (respond : Option String → TaskPage) (fuel : Nat) :
    List Task × List TaskRequest :=
  fetchTasksGo respond fuel none

/-- Default page used with `List.getD` when indexing page sequences. -/
def dfltPage : TaskPage := { data := [], nextOffset := none }

/-! ## Configuration probe (`app.get('/test')`, src/index.js
lines 316-326). -/

/-- The four environment-provided configuration values; `none` models an
unset variable. -/
structure Config where
  asanaToken : Option String
  workspaceId : Option String
  driveFolderId : Option String
  serviceAccountKey : Option String
deriving DecidableEq, Repr

structure TestResponse where
  message : String
  asana : Bool
  workspace : Bool
  drive : Bool
  serviceAccount : Bool
deriving DecidableEq, Repr

/-- The `/test` handler: `!!value` for each of the four configuration
values. -/
def testHandler (c : Config) : TestResponse :=
  { message := "Agent is running"
    asana := truthy c.asanaToken
    workspace := truthy c.workspaceId
    drive := truthy c.driveFolderId
    serviceAccount := truthy c.serviceAccountKey }

/-! ## Google Drive model (`findOrCreateFolder`, src/index.js
lines 154-181).

The JavaScript builds the search query by plain string interpolation:

  name='<folderName>' and '<parentFolderId>' in parents and
  mimeType='application/vnd.google-apps.folder' and trashed=false

and the Drive service interprets that string.  We model the store as a
file list plus a fresh-id counter, and model Drive's query evaluation by
parsing the query string into clauses (quoted strings run to the next
single-quote character) and filtering the file list; an unparseable
query is the service's invalid-query error. -/

/-- The single-quote character used by the Drive query syntax. -/
def qc : Char := '\x27'

/-- The single-quote as a string (for building query strings). -/
def sq : String := String.mk [qc]

structure DriveFile where
  id : String
  name : String
  parents : List String
  mimeType : String
  trashed : Bool
deriving DecidableEq, Repr

structure DriveState where
  files : List DriveFile
  nextId : Nat
deriving DecidableEq, Repr

def folderMime : String := "application/vnd.google-apps.folder"

/-- One clause of a Drive files query. -/
inductive QClause where
  | nameEq (s : String)
  | inParents (p : String)
  | mimeEq (s : String)
  | trashedIs (b : Bool)
deriving DecidableEq, Repr

/-- Consume an exact literal from the front of the character list. -/
def dropLit : List Char → List Char → Option (List Char)
  | [], l => some l
  | _ :: _, [] => none
  | c :: cs, d :: ds => if d = c then dropLit cs ds else none

/-- Consume characters up to (and including) the next single quote,
returning the consumed content and the remainder. -/
def takeQuoted : List Char → Option (List Char × List Char)
  | [] => none
  | c :: rest =>
    if c = qc then some ([], rest)
    else (takeQuoted rest).map (fun p => (c :: p.1, p.2))

/-- Parse one query clause from the front of the character list. -/
def parseClause (l : List Char) : Option (QClause × List Char) :=
  match dropLit ("name=".data ++ [qc]) l with
  | some rest => (takeQuoted rest).map (fun p => (QClause.nameEq (String.mk p.1), p.2))
  | none =>
  match dropLit ("mimeType=".data ++ [qc]) l with
  | some rest => (takeQuoted rest).map (fun p => (QClause.mimeEq (String.mk p.1), p.2))
  | none =>
  match dropLit "trashed=false".data l with
  | some rest => some (QClause.trashedIs false, rest)
  | none =>
  match dropLit "trashed=true".data l with
  | some rest => some (QClause.trashedIs true, rest)
  | none =>
  match dropLit [qc] l with
  | some rest =>
    (takeQuoted rest).bind (fun p =>
      (dropLit " in parents".data p.2).map (fun r2 => (QClause.inParents (String.mk p.1), r2)))
  | none => none

/-- Parse a conjunction of clauses separated by `" and "`; `fuel` bounds
the clause count (each clause consumes at least one character, so
`length + 1` always suffices). -/
def parseClauses : Nat → List Char → Option (List QClause)
  | 0, _ => none
  | fuel + 1, l =>
    (parseClause l).bind (fun p =>
      if p.2 = [] then some [p.1]
      else (dropLit " and ".data p.2).bind (fun r2 =>
        (parseClauses fuel r2).map (fun cs => p.1 :: cs)))

def parseQuery (q : String) : Option (List QClause) :=
  parseClauses (q.data.length + 1) q.data

/-- Whether a file satisfies one query clause. -/
def matchFile (f : DriveFile) : QClause → Bool
  | .nameEq s => f.name == s
  | .inParents p => f.parents.contains p
  | .mimeEq s => f.mimeType == s
  | .trashedIs b => f.trashed == b

/-- Query evaluation of `drive.files.list`: parse the query and filter
the store's files in the store's own order; `none` is the service's
invalid-query error. -/
def filesList (q : String) (st : DriveState) : Option (List DriveFile) :=
  (parseQuery q).map (fun cs => st.files.filter (fun f => cs.all (matchFile f)))

/-- The id handed out by `drive.files.create` in state `st`. -/
def newFolderId (st : DriveState) : String :=
  "folder" ++ toString st.nextId

/-- The query string built by `findOrCreateFolder`. -/
def folderQuery (folderName parentFolderId : String) : String :=
  "name=" ++ sq ++ folderName ++ sq ++ " and " ++ sq ++ parentFolderId ++ sq
    ++ " in parents and mimeType=" ++ sq ++ folderMime ++ sq ++ " and trashed=false"

/-- Shallow embedding of `findOrCreateFolder(folderName, parentFolderId)`
(src/index.js lines 154-181): list files matching the interpolated query,
return the first match's id, else create a folder with exactly the given
name under the parent and return its new id.  The returned state reflects
the create. -/
def findOrCreateFolder (folderName parentFolderId : String) (st : DriveState) :
    Except String (String × DriveState) :=
  match filesList (folderQuery folderName parentFolderId) st with
  | none => .error "Invalid query"
  | some files =>
    match files with
    | f :: _ => .ok (f.id, st)
    | [] =>
      let fid := newFolderId st
      let nf : DriveFile :=
        { id := fid, name := folderName, parents := [parentFolderId]
          mimeType := folderMime, trashed := false }
      .ok (fid, { files := st.files ++ [nf], nextId := st.nextId + 1 })

/-- The folders a character-for-character exact-name search should
select: non-trashed folders with exactly this name under this parent, in
the store's own order (the spec's reading of the search). -/
def exactMatches (folderName parentFolderId : String) (st : DriveState) : List DriveFile :=
  st.files.filter (fun f =>
    f.name == folderName && f.parents.contains parentFolderId
      && f.mimeType == folderMime && !f.trashed)

/-! ## Row recovery (the inverse posited by the round-trip claim).
The inverse is our own construction: it reads the row cells back and
splits the tags cell on the `", "` separator. -/

/-- Whether a character list contains an occurrence of the two-character
separator `", "`. -/
def hasSep : List Char → Bool
  | [] => false
  | c :: rest => if c = ',' ∧ rest.head? = some ' ' then true else hasSep rest

/-- Split a character list at every occurrence of `", "` (greedy left to
right); `acc` is the current component being accumulated. -/
def splitTags : List Char → List Char → List (List Char)
  | [], acc => [acc]
  | c :: rest, acc =>
    if c = ',' ∧ rest.head? = some ' ' then acc :: splitTags rest.tail []
    else splitTags rest (acc ++ [c])
termination_by l _ => l.length
decreasing_by
  · simp [List.length_tail]; omega
  · simp

/-- Recover the tag-name list from the Tags cell: the empty cell decodes
to no tags, anything else splits on `", "`. -/
def recoverTagNames (cell : String) : List String :=
  if cell = "" then [] else (splitTags cell.data []).map (fun l => String.mk l)

def recoverRowName (row : List String) : String := row.getD 0 ""

def recoverRowCompleted (row : List String) : Bool := row.getD 1 "" == "Completed"

def recoverRowDue (row : List String) : String := row.getD 3 ""

def recoverRowTags (row : List String) : List String := recoverTagNames (row.getD 5 "")

/-- The task's ordered tag-name list (absent tags read as no tags). -/
def taskTagNames (t : Task) : List String := (t.tags.getD []).map TaskTag.name

/-- Character-level image of joining with `", "`. -/
def joinChars : List (List Char) → List Char
  | [] => []
  | [n] => n
  | n :: ns => n ++ ',' :: ' ' :: joinChars ns


/-! ## Helper lemmas -/

theorem status_success_or_failed (r : BackupResult) :
    r.status = "success" ∨ r.status = "failed" := by
  cases r <;> simp [BackupResult.status]

theorem createProjectBackup_ok_project (ops : BackupOps) (now : String)
    (p : Project) (tasks : List Task) (r : BackupResult)
    (h : createProjectBackup ops now p tasks = .ok r) : r.project = p.name := by
  simp only [createProjectBackup] at h
  split at h
  · cases h
    rfl
  · cases h

theorem processProject_project (fetch : Project → Except String (List Task))
    (ops : BackupOps) (now : String) (p : Project) :
    (processProject fetch ops now p).project = p.name := by
  unfold processProject
  cases hf : fetch p with
  | error m => rfl
  | ok tasks =>
    show (match createProjectBackup ops now p tasks with
          | .ok r => r
          | .error m => BackupResult.failed p.name m).project = p.name
    cases hb : createProjectBackup ops now p tasks with
    | ok r => exact createProjectBackup_ok_project ops now p tasks r hb
    | error m => rfl

theorem filter_status_sum (l : List BackupResult) :
    (l.filter (fun r => r.status == "success")).length
      + (l.filter (fun r => r.status == "failed")).length = l.length := by
  induction l with
  | nil => rfl
  | cons r t ih =>
    rw [List.filter_cons, List.filter_cons]
    rcases status_success_or_failed r with h | h
    · have h1 : (r.status == "success") = true := by simp [h]
      have h2 : (r.status == "failed") = false := by simp [h]
      rw [h1, h2]
      simp
      omega
    · have h1 : (r.status == "success") = false := by simp [h]
      have h2 : (r.status == "failed") = true := by simp [h]
      rw [h1, h2]
      simp
      omega

theorem filter_success_of_all (l : List BackupResult)
    (h : ∀ r ∈ l, r.status = "success") :
    l.filter (fun r => r.status == "success") = l
      ∧ l.filter (fun r => r.status == "failed") = [] := by
  constructor
  · rw [List.filter_eq_self]
    intro r hr
    simp [h r hr]
  · rw [List.filter_eq_nil_iff]
    intro r hr
    simp [h r hr]

/-! ## Concrete inputs used by counterexamples and witnesses -/

/-- A task whose assignee is present with an empty name and whose
date-only due field is present but empty. -/
def taskEmptyFields : Task :=
  { name := some "T", completed := false, completed_at := none,
    due_on := some "", due_at := some "2026-02-02",
    assignee := some { name := "" }, notes := none, tags := none,
    created_at := none, modified_at := none, permalink_url := none }

/-- A fully-populated task with a named assignee and one tag. -/
def taskPopulated : Task :=
  { name := some "Write docs", completed := true,
    completed_at := some "2026-01-03T10:00:00.000Z",
    due_on := some "2026-01-05", due_at := none,
    assignee := some { name := "Alice" }, notes := some "note",
    tags := some [{ name := "urgent" }],
    created_at := some "2026-01-01T00:00:00.000Z",
    modified_at := some "2026-01-02T00:00:00.000Z",
    permalink_url := some "https://app.asana.com/0/1/2" }

/-- A project whose owner is present with an empty name. -/
def projectEmptyOwner : Project :=
  { gid := "11", name := "Alpha", created_at := "2025-01-01T00:00:00.000Z",
    modified_at := "2025-06-01T00:00:00.000Z", archived := false,
    notes := none, owner := some { name := "" } }

/-- A project with a named owner. -/
def projectNamedOwner : Project :=
  { gid := "12", name := "Beta", created_at := "2025-01-01T00:00:00.000Z",
    modified_at := "2025-06-01T00:00:00.000Z", archived := true,
    notes := some "keep", owner := some { name := "Olive" } }

/-- A minimal completed task (all optional fields absent). -/
def taskBare : Task :=
  { name := some "T", completed := true, completed_at := none,
    due_on := none, due_at := none, assignee := none, notes := none,
    tags := none, created_at := none, modified_at := none,
    permalink_url := none }

/-! ## Claim theorems -/

/-- C7: for every project whose fetched task list is empty, the values
written to the Tasks tab are exactly the fixed 10-column header row and
no task rows. -/
theorem empty_tasks_tab (fileName folderId : String) (p : Project) (now : String) :
    (createTasksSpreadsheet fileName folderId p [] now).tasksValues
      = [["Task Name", "Status", "Assignee", "Due Date",
          "Completed Date", "Tags", "Notes", "URL",
          "Created At", "Modified At"]] := rfl

/-- C3 counterexample: on a task whose assignee is present with an empty
name and whose date-only due field is present but empty, the code's row
(JavaScript falsy-default semantics) differs from the claim's row — the
code writes "Unassigned" where the claim says the assignee's (empty)
name, and falls through to the date-time due value where the claim says
the present date-only (empty) value. -/
theorem task_row_cex :
    taskRow taskEmptyFields
      = ["T", "Incomplete", "Unassigned", "2026-02-02", "", "", "", "", "", ""]
    ∧ specTaskRow taskEmptyFields
      = ["T", "Incomplete", "", "", "", "", "", "", "", ""]
    ∧ taskRow taskEmptyFields ≠ specTaskRow taskEmptyFields := by
  refine ⟨rfl, rfl, ?_⟩
  decide

/-- C3 (amended): for every task whose assignee name, when an assignee is
present, is nonempty, and whose date-only due field, when present, is
nonempty, the row written to the Tasks tab is exactly the claim's
10-element row in the claim's order. -/
theorem task_row_spec (t : Task)
    (ha : ∀ a, t.assignee = some a → a.name ≠ "")
    (hd : t.due_on ≠ some "") :
    taskRow t = specTaskRow t := by
  have hass : jsOr (t.assignee.map TaskAssignee.name) "Unassigned"
      = (t.assignee.map TaskAssignee.name).getD "Unassigned" := by
    cases h : t.assignee with
    | none => rfl
    | some a => simp [jsOr, ha a h]
  have hdue : jsOr t.due_on (jsOr t.due_at "") = t.due_on.getD (t.due_at.getD "") := by
    cases h : t.due_on with
    | none =>
      show jsOr t.due_at "" = t.due_at.getD ""
      exact jsOr_empty_default _
    | some s =>
      have hs : s ≠ "" := by
        intro he
        exact hd (he ▸ h)
      simp [jsOr, hs]
  simp only [taskRow, specTaskRow]
  rw [hass, hdue]
  simp [jsOr_empty_default]

/-- C3 witness: the amended row projection evaluated on a concrete
fully-populated task. -/
theorem task_row_spec_witness :
    taskRow taskPopulated = specTaskRow taskPopulated := by
  apply task_row_spec
  · intro a h
    simp only [taskPopulated, Option.some.injEq] at h
    subst h
    decide
  · decide

/-- C8 counterexample: on a project whose owner is present with an empty
name, the code writes "N/A" in the Owner row where the claim says the
owner's (empty) name, so the written Project Info rows differ from the
claim's rows. -/
theorem project_info_cex :
    (createTasksSpreadsheet "Backup_2026-01-01" "fid" projectEmptyOwner
        [] "2026-01-01T00:00:00.000Z").infoValues
      ≠ specProjectInfoRows projectEmptyOwner [] "2026-01-01T00:00:00.000Z" := by
  decide

/-- C8 (amended): for every project whose owner name, when an owner is
present, is nonempty, the values written to the Project Info tab are
exactly the claim's 11 key/value rows in fixed order. -/
theorem project_info_spec (fileName folderId : String) (p : Project)
    (tasks : List Task) (now : String)
    (ho : ∀ o, p.owner = some o → o.name ≠ "") :
    (createTasksSpreadsheet fileName folderId p tasks now).infoValues
        = specProjectInfoRows p tasks now
    ∧ (createTasksSpreadsheet fileName folderId p tasks now).infoValues.length = 11 := by
  have hown : jsOr (p.owner.map ProjectOwner.name) "N/A"
      = (p.owner.map ProjectOwner.name).getD "N/A" := by
    cases h : p.owner with
    | none => rfl
    | some o => simp [jsOr, ho o h]
  exact ⟨by simp [createTasksSpreadsheet, projectInfoRows, specProjectInfoRows,
                  hown, jsOr_empty_default], rfl⟩

/-- C8 witness: the Project Info rows of a concrete archived project with
a named owner and one completed task. -/
theorem project_info_spec_witness :
    (createTasksSpreadsheet "Backup_2026-01-01" "fid" projectNamedOwner
        [taskBare] "2026-01-01T00:00:00.000Z").infoValues
      = specProjectInfoRows projectNamedOwner [taskBare] "2026-01-01T00:00:00.000Z" := by
  have h := project_info_spec "Backup_2026-01-01" "fid" projectNamedOwner
    [taskBare] "2026-01-01T00:00:00.000Z"
    (by intro o h
        simp only [projectNamedOwner, Option.some.injEq] at h
        subst h
        decide)
  exact h.1

/-- C9 counterexample: two configurations that agree on which of the four
values are set (all four are set in both), yet whose `/test` responses
differ, because one access token is the empty string and `!!value`
treats a set-but-empty value as absent. -/
theorem test_probe_cex :
    ((⟨some "", some "w", some "d", some "k"⟩ : Config).asanaToken.isSome
        = (⟨some "t", some "w", some "d", some "k"⟩ : Config).asanaToken.isSome)
    ∧ ((⟨some "", some "w", some "d", some "k"⟩ : Config).workspaceId.isSome
        = (⟨some "t", some "w", some "d", some "k"⟩ : Config).workspaceId.isSome)
    ∧ ((⟨some "", some "w", some "d", some "k"⟩ : Config).driveFolderId.isSome
        = (⟨some "t", some "w", some "d", some "k"⟩ : Config).driveFolderId.isSome)
    ∧ ((⟨some "", some "w", some "d", some "k"⟩ : Config).serviceAccountKey.isSome
        = (⟨some "t", some "w", some "d", some "k"⟩ : Config).serviceAccountKey.isSome)
    ∧ testHandler ⟨some "", some "w", some "d", some "k"⟩
        ≠ testHandler ⟨some "t", some "w", some "d", some "k"⟩ := by
  decide

/-- C9 (amended): for any two configurations in which the JavaScript
truthiness (set to a nonempty value, vs. unset or set to the empty
string) of each of the four configuration values agrees pairwise, the
`/test` responses are identical — the response never depends on the
values' contents beyond that. -/
theorem test_probe_noninterference (a b : Config)
    (h1 : truthy a.asanaToken = truthy b.asanaToken)
    (h2 : truthy a.workspaceId = truthy b.workspaceId)
    (h3 : truthy a.driveFolderId = truthy b.driveFolderId)
    (h4 : truthy a.serviceAccountKey = truthy b.serviceAccountKey) :
    testHandler a = testHandler b := by
  simp [testHandler, h1, h2, h3, h4]

/-- C9 witness: two configurations holding entirely different nonempty
secrets produce the same `/test` response. -/
theorem test_probe_noninterference_witness :
    testHandler ⟨some "tokenA", some "ws1", some "root1", some "keyA"⟩
      = testHandler ⟨some "tokenB", some "ws2", some "root2", some "keyB"⟩ := by
  apply test_probe_noninterference <;> decide

/-- C10: every Summary produced by a completed run satisfies
successful + failed = totalProjects = length of results; each project
contributes exactly one entry to results, in project order; and every
entry's status is either "success" or "failed". -/
theorem summary_counts (fetch : Project → Except String (List Task))
    (ops : BackupOps) (now : String) (projects : List Project) :
    (runBackup fetch ops now projects).successful
        + (runBackup fetch ops now projects).failed
        = (runBackup fetch ops now projects).totalProjects
    ∧ (runBackup fetch ops now projects).totalProjects = projects.length
    ∧ (runBackup fetch ops now projects).results.length = projects.length
    ∧ (runBackup fetch ops now projects).results.map BackupResult.project
        = projects.map Project.name
    ∧ ∀ r ∈ (runBackup fetch ops now projects).results,
        r.status = "success" ∨ r.status = "failed" := by
  refine ⟨?_, rfl, ?_, ?_, ?_⟩
  · simp only [runBackup]
    rw [filter_status_sum]
    simp
  · simp [runBackup]
  · simp only [runBackup, List.map_map]
    exact List.map_congr_left (fun p _ => processProject_project fetch ops now p)
  · intro r _
    exact status_success_or_failed r

/-! Concrete projects and operations for the isolation witness. -/

def projA : Project :=
  { gid := "1", name := "Alpha", created_at := "c1", modified_at := "m1",
    archived := false, notes := none, owner := none }

def projB : Project :=
  { gid := "2", name := "Beta", created_at := "c2", modified_at := "m2",
    archived := false, notes := none, owner := none }

def projC : Project :=
  { gid := "3", name := "Gamma", created_at := "c3", modified_at := "m3",
    archived := false, notes := none, owner := none }

/-- A task fetch that throws for the middle project only. -/
def fetchW : Project → Except String (List Task) :=
  fun p => if p.gid == "2" then .error "boom" else .ok []

/-- A Drive/Sheets backend that always succeeds. -/
def opsW : BackupOps := fun _ _ _ _ => .ok ("folderX", "sheetY")

/-- C1: per-project failure isolation — if one project's processing
throws (its recorded outcome is a failed result carrying message `m`)
and every other project's processing succeeds, the run still produces
one result per project in project order, with all the others counted
successful, the one failure counted once, and the failed entry carrying
exactly the caught error's message text. -/
theorem backup_isolation
    (fetch : Project → Except String (List Task)) (ops : BackupOps) (now : String)
    (pre post : List Project) (pk : Project) (m : String)
    (hpre : ∀ p ∈ pre, (processProject fetch ops now p).status = "success")
    (hpost : ∀ p ∈ post, (processProject fetch ops now p).status = "success")
    (hfail : processProject fetch ops now pk = BackupResult.failed pk.name m) :
    (runBackup fetch ops now (pre ++ pk :: post)).results.length
        = pre.length + 1 + post.length
    ∧ (runBackup fetch ops now (pre ++ pk :: post)).results.map BackupResult.project
        = (pre ++ pk :: post).map Project.name
    ∧ (runBackup fetch ops now (pre ++ pk :: post)).successful
        = pre.length + post.length
    ∧ (runBackup fetch ops now (pre ++ pk :: post)).failed = 1
    ∧ (runBackup fetch ops now (pre ++ pk :: post)).results.getD pre.length
        (BackupResult.failed "" "") = BackupResult.failed pk.name m := by
  have hallpre : ∀ r ∈ pre.map (processProject fetch ops now), r.status = "success" := by
    intro r hr
    rcases List.mem_map.mp hr with ⟨p, hp, hrp⟩
    exact hrp ▸ hpre p hp
  have hallpost : ∀ r ∈ post.map (processProject fetch ops now), r.status = "success" := by
    intro r hr
    rcases List.mem_map.mp hr with ⟨p, hp, hrp⟩
    exact hrp ▸ hpost p hp
  have hpkS : ((processProject fetch ops now pk).status == "success") = false := by
    rw [hfail]
    simp [BackupResult.status]
  have hpkF : ((processProject fetch ops now pk).status == "failed") = true := by
    rw [hfail]
    simp [BackupResult.status]
  refine ⟨?_, ?_, ?_, ?_, ?_⟩
  · simp only [runBackup, List.length_map, List.length_append, List.length_cons]
    omega
  · simp only [runBackup, List.map_map]
    exact List.map_congr_left (fun p _ => processProject_project fetch ops now p)
  · simp only [runBackup, List.map_append, List.map_cons, List.filter_append,
               List.filter_cons, hpkS]
    rw [(filter_success_of_all _ hallpre).1, (filter_success_of_all _ hallpost).1]
    simp
  · simp only [runBackup, List.map_append, List.map_cons, List.filter_append,
               List.filter_cons, hpkF]
    rw [(filter_success_of_all _ hallpre).2, (filter_success_of_all _ hallpost).2]
    simp
  · simp only [runBackup, List.map_append, List.map_cons, List.getD_eq_getElem?_getD]
    rw [List.getElem?_append_right (by simp)]
    simp [hfail]

/-- C1 witness: three projects where the middle one's task fetch throws
"boom"; the run reports 2 successes, 1 failure, and all three results in
order. -/
theorem backup_isolation_witness :
    (runBackup fetchW opsW "2026-01-01T00:00:00.000Z" ([projA] ++ projB :: [projC])).results.length
        = [projA].length + 1 + [projC].length
    ∧ (runBackup fetchW opsW "2026-01-01T00:00:00.000Z" ([projA] ++ projB :: [projC])).results.map BackupResult.project
        = ([projA] ++ projB :: [projC]).map Project.name
    ∧ (runBackup fetchW opsW "2026-01-01T00:00:00.000Z" ([projA] ++ projB :: [projC])).successful
        = [projA].length + [projC].length
    ∧ (runBackup fetchW opsW "2026-01-01T00:00:00.000Z" ([projA] ++ projB :: [projC])).failed = 1
    ∧ (runBackup fetchW opsW "2026-01-01T00:00:00.000Z" ([projA] ++ projB :: [projC])).results.getD [projA].length
        (BackupResult.failed "" "") = BackupResult.failed projB.name "boom" :=
  backup_isolation fetchW opsW "2026-01-01T00:00:00.000Z" [projA] [projC] projB "boom"
    (by decide) (by decide) (by decide)

/-! ## Pagination lemmas -/

theorem fetchTasksGo_pages (respond : Option String → TaskPage) (pages : List TaskPage) :
    ∀ (fuel : Nat) (off : Option String),
    pages ≠ [] →
    pages.length ≤ fuel →
    respond off = pages.getD 0 dfltPage →
    (∀ i, i < pages.length - 1 →
      truthy ((pages.getD i dfltPage).nextOffset) = true
      ∧ respond ((pages.getD i dfltPage).nextOffset) = pages.getD (i + 1) dfltPage) →
    (pages.getD (pages.length - 1) dfltPage).nextOffset = none →
    (fetchTasksGo respond fuel off).1 = (pages.map TaskPage.data).flatten
    ∧ (fetchTasksGo respond fuel off).2.length = pages.length
    ∧ ∀ r ∈ (fetchTasksGo respond fuel off).2, r.limit = 100 := by
  induction pages with
  | nil =>
    intro fuel off hne
    exact absurd rfl hne
  | cons p rest ih =>
    intro fuel off _ hfuel hfirst hmid hlast
    cases fuel with
    | zero => simp at hfuel
    | succ f =>
      simp only [List.getD_cons_zero] at hfirst
      cases rest with
      | nil =>
        have hp : p.nextOffset = none := by simpa using hlast
        simp [fetchTasksGo, hfirst, hp, truthy]
      | cons q rest' =>
        obtain ⟨ht0, hr0⟩ := hmid 0 (by simp)
        simp only [List.getD_cons_zero] at ht0 hr0
        have ihres := ih f p.nextOffset (by simp)
          (by simp only [List.length_cons] at hfuel ⊢; omega)
          (by simpa using hr0)
          (by intro i hi
              have h := hmid (i + 1) (by simp only [List.length_cons] at hi ⊢; omega)
              simpa using h)
          (by simpa using hlast)
        simp only [fetchTasksGo, hfirst, ht0, if_true]
        refine ⟨?_, ?_, ?_⟩
        · simp [ihres.1]
        · simp [ihres.2.1]
        · intro r hr
          simp only [List.mem_cons] at hr
          rcases hr with hr | hr
          · rw [hr]
          · exact ihres.2.2 r hr

/-- C2 (amended): given a source that answers the initial request with
page 0 and each page's continuation token with the next page, where
every page except the last carries a truthy (nonempty) continuation
token and the last carries none, `fetchProjectTasks` returns exactly the
concatenation of all pages' task lists in page order, issues exactly one
request per page (none after the page lacking a token), and every
request asks for at most 100 tasks. -/
theorem fetch_pagination (respond : Option String → TaskPage)
    (pages : List TaskPage) (fuel : Nat)
    (hne : pages ≠ [])
    (hfuel : pages.length ≤ fuel)
    (hfirst : respond none = pages.getD 0 dfltPage)
    (hmid : ∀ i, i < pages.length - 1 →
      truthy ((pages.getD i dfltPage).nextOffset) = true
      ∧ respond ((pages.getD i dfltPage).nextOffset) = pages.getD (i + 1) dfltPage)
    (hlast : (pages.getD (pages.length - 1) dfltPage).nextOffset = none) :
    (fetchProjectTasks respond fuel).1 = (pages.map TaskPage.data).flatten
    ∧ (fetchProjectTasks respond fuel).2.length = pages.length
    ∧ ∀ r ∈ (fetchProjectTasks respond fuel).2, r.limit = 100 :=
  fetchTasksGo_pages respond pages fuel none hne hfuel hfirst hmid hlast

/-! Concrete tasks and sources for the pagination counterexample and
witness. -/

def taskOne : Task :=
  { name := some "One", completed := false, completed_at := none,
    due_on := none, due_at := none, assignee := none, notes := none,
    tags := none, created_at := none, modified_at := none,
    permalink_url := none }

def taskTwo : Task :=
  { name := some "Two", completed := false, completed_at := none,
    due_on := none, due_at := none, assignee := none, notes := none,
    tags := none, created_at := none, modified_at := none,
    permalink_url := none }

/-- A source whose first response carries the continuation token `""`
(a present but empty `next_page.offset`) leading to a second page. -/
def respondEmptyTok : Option String → TaskPage :=
  fun o =>
    match o with
    | none => { data := [taskOne], nextOffset := some "" }
    | some _ => { data := [taskTwo], nextOffset := none }

/-- A source with two pages chained by the token "page2". -/
def respondTwoPages : Option String → TaskPage :=
  fun o =>
    match o with
    | none => { data := [taskOne], nextOffset := some "page2" }
    | some s =>
      if s = "page2" then { data := [taskTwo], nextOffset := none } else dfltPage

def pagesW : List TaskPage :=
  [{ data := [taskOne], nextOffset := some "page2" },
   { data := [taskTwo], nextOffset := none }]

/-- C2 counterexample: a source returning two pages where the first
response carries a continuation token (the empty string) that leads to
the second page; the loop's JavaScript truthiness test treats the empty
token as "no further token", so `fetchProjectTasks` stops after one
request and returns only the first page instead of the concatenation. -/
theorem fetch_pagination_cex :
    (respondEmptyTok none).nextOffset.isSome = true
    ∧ respondEmptyTok ((respondEmptyTok none).nextOffset)
        = { data := [taskTwo], nextOffset := none }
    ∧ (fetchProjectTasks respondEmptyTok 2).1 = [taskOne]
    ∧ (fetchProjectTasks respondEmptyTok 2).2.length = 1
    ∧ (fetchProjectTasks respondEmptyTok 2).1 ≠ [taskOne, taskTwo] := by
  decide

/-- C2 witness: on a concrete two-page source with a nonempty token the
amended theorem yields the concatenation, two requests, limit 100. -/
theorem fetch_pagination_witness :
    (fetchProjectTasks respondTwoPages 2).1 = (pagesW.map TaskPage.data).flatten
    ∧ (fetchProjectTasks respondTwoPages 2).2.length = pagesW.length
    ∧ ∀ r ∈ (fetchProjectTasks respondTwoPages 2).2, r.limit = 100 :=
  fetch_pagination respondTwoPages pagesW 2 (by decide) (by decide) (by decide)
    (by decide) (by decide)

/-! ## Drive query parser lemmas -/

theorem string_mk_data (s : String) : String.mk s.data = s := rfl

theorem dropLit_append (lit : List Char) : ∀ l, dropLit lit (lit ++ l) = some l := by
  induction lit with
  | nil => intro l; rfl
  | cons c cs ih => intro l; simp [dropLit, ih]

theorem dropLit_head_ne (c d : Char) (cs ds : List Char) (h : d ≠ c) :
    dropLit (c :: cs) (d :: ds) = none := by
  simp [dropLit, h]

theorem takeQuoted_append (s : List Char) : ∀ rest, qc ∉ s →
    takeQuoted (s ++ qc :: rest) = some (s, rest) := by
  induction s with
  | nil => intro rest _; simp [takeQuoted]
  | cons c s' ih =>
    intro rest h
    have hc : c ≠ qc := by
      intro he
      exact h (he ▸ List.mem_cons_self c s')
    have hs' : qc ∉ s' := fun hm => h (List.mem_cons_of_mem c hm)
    simp [takeQuoted, hc, ih rest hs']

theorem parseClause_name (s rest : List Char) (h : qc ∉ s) :
    parseClause ("name=".data ++ qc :: (s ++ qc :: rest))
      = some (QClause.nameEq (String.mk s), rest) := by
  have hgroup : "name=".data ++ qc :: (s ++ qc :: rest)
      = ("name=".data ++ [qc]) ++ (s ++ qc :: rest) := by simp
  have h1 : dropLit ("name=".data ++ [qc]) ("name=".data ++ qc :: (s ++ qc :: rest))
      = some (s ++ qc :: rest) := by
    rw [hgroup]
    exact dropLit_append _ _
  simp only [parseClause, h1]
  rw [takeQuoted_append s rest h]
  rfl

theorem parseClause_parents (s rest : List Char) (h : qc ∉ s) :
    parseClause (qc :: (s ++ qc :: (" in parents".data ++ rest)))
      = some (QClause.inParents (String.mk s), rest) := by
  have e1 : ("name=".data ++ [qc]) = 'n' :: ("ame=".data ++ [qc]) := rfl
  have e2 : ("mimeType=".data ++ [qc]) = 'm' :: ("imeType=".data ++ [qc]) := rfl
  have e3 : "trashed=false".data = 't' :: "rashed=false".data := rfl
  have e4 : "trashed=true".data = 't' :: "rashed=true".data := rfl
  have h1 : dropLit ("name=".data ++ [qc])
      (qc :: (s ++ qc :: (" in parents".data ++ rest))) = none := by
    rw [e1]
    exact dropLit_head_ne _ _ _ _ (by decide)
  have h2 : dropLit ("mimeType=".data ++ [qc])
      (qc :: (s ++ qc :: (" in parents".data ++ rest))) = none := by
    rw [e2]
    exact dropLit_head_ne _ _ _ _ (by decide)
  have h3 : dropLit "trashed=false".data
      (qc :: (s ++ qc :: (" in parents".data ++ rest))) = none := by
    rw [e3]
    exact dropLit_head_ne _ _ _ _ (by decide)
  have h4 : dropLit "trashed=true".data
      (qc :: (s ++ qc :: (" in parents".data ++ rest))) = none := by
    rw [e4]
    exact dropLit_head_ne _ _ _ _ (by decide)
  have h5 : dropLit [qc] (qc :: (s ++ qc :: (" in parents".data ++ rest)))
      = some (s ++ qc :: (" in parents".data ++ rest)) := by
    simp [dropLit]
  have h6 : takeQuoted (s ++ qc :: (" in parents".data ++ rest))
      = some (s, " in parents".data ++ rest) := takeQuoted_append s _ h
  have h7 : dropLit " in parents".data (" in parents".data ++ rest) = some rest :=
    dropLit_append _ _
  simp only [parseClause, h1, h2, h3, h4, h5, h6, h7]
  rfl

theorem parseClause_mime (s rest : List Char) (h : qc ∉ s) :
    parseClause ("mimeType=".data ++ qc :: (s ++ qc :: rest))
      = some (QClause.mimeEq (String.mk s), rest) := by
  have econs : "mimeType=".data ++ qc :: (s ++ qc :: rest)
      = 'm' :: ("imeType=".data ++ qc :: (s ++ qc :: rest)) := rfl
  have e1 : ("name=".data ++ [qc]) = 'n' :: ("ame=".data ++ [qc]) := rfl
  have h1 : dropLit ("name=".data ++ [qc])
      ("mimeType=".data ++ qc :: (s ++ qc :: rest)) = none := by
    rw [econs, e1]
    exact dropLit_head_ne _ _ _ _ (by decide)
  have hgroup : "mimeType=".data ++ qc :: (s ++ qc :: rest)
      = ("mimeType=".data ++ [qc]) ++ (s ++ qc :: rest) := by simp
  have h2 : dropLit ("mimeType=".data ++ [qc])
      ("mimeType=".data ++ qc :: (s ++ qc :: rest)) = some (s ++ qc :: rest) := by
    rw [hgroup]
    exact dropLit_append _ _
  simp only [parseClause, h1, h2]
  rw [takeQuoted_append s rest h]
  rfl

theorem parseClause_trashed (rest : List Char) :
    parseClause ("trashed=false".data ++ rest)
      = some (QClause.trashedIs false, rest) := by
  have econs : "trashed=false".data ++ rest = 't' :: ("rashed=false".data ++ rest) := rfl
  have e1 : ("name=".data ++ [qc]) = 'n' :: ("ame=".data ++ [qc]) := rfl
  have e2 : ("mimeType=".data ++ [qc]) = 'm' :: ("imeType=".data ++ [qc]) := rfl
  have h1 : dropLit ("name=".data ++ [qc]) ("trashed=false".data ++ rest) = none := by
    rw [econs, e1]
    exact dropLit_head_ne _ _ _ _ (by decide)
  have h2 : dropLit ("mimeType=".data ++ [qc]) ("trashed=false".data ++ rest) = none := by
    rw [econs, e2]
    exact dropLit_head_ne _ _ _ _ (by decide)
  have h3 : dropLit "trashed=false".data ("trashed=false".data ++ rest) = some rest :=
    dropLit_append _ _
  simp only [parseClause, h1, h2, h3]

theorem parseClauses_cons (fuel : Nat) (l tail r2 : List Char) (c : QClause)
    (hc : parseClause l = some (c, tail)) (hne : tail ≠ [])
    (hdrop : dropLit " and ".data tail = some r2) :
    parseClauses (fuel + 1) l = (parseClauses fuel r2).map (fun cs => c :: cs) := by
  simp [parseClauses, hc, hne, hdrop]

theorem parseClauses_last (fuel : Nat) (l : List Char) (c : QClause)
    (hc : parseClause l = some (c, [])) :
    parseClauses (fuel + 1) l = some [c] := by
  simp [parseClauses, hc]

theorem parseQuery_folderQuery (n p : String) (hn : qc ∉ n.data) (hp : qc ∉ p.data) :
    parseQuery (folderQuery n p)
      = some [QClause.nameEq n, QClause.inParents p,
              QClause.mimeEq folderMime, QClause.trashedIs false] := by
  have hl4 : parseClause "trashed=false".data = some (QClause.trashedIs false, []) := by
    have h := parseClause_trashed []
    rwa [List.append_nil] at h
  have hl3 : parseClause ("mimeType=".data ++ qc ::
        (folderMime.data ++ qc :: (" and ".data ++ "trashed=false".data)))
      = some (QClause.mimeEq folderMime,
          " and ".data ++ "trashed=false".data) := by
    have h := parseClause_mime folderMime.data
      (" and ".data ++ "trashed=false".data) (by decide)
    rwa [string_mk_data] at h
  have hl2 : parseClause (qc :: (p.data ++ qc :: (" in parents".data ++
        (" and ".data ++ ("mimeType=".data ++ qc ::
          (folderMime.data ++ qc :: (" and ".data ++ "trashed=false".data)))))))
      = some (QClause.inParents p,
          " and ".data ++ ("mimeType=".data ++ qc ::
            (folderMime.data ++ qc :: (" and ".data ++ "trashed=false".data)))) := by
    have h := parseClause_parents p.data
      (" and ".data ++ ("mimeType=".data ++ qc ::
        (folderMime.data ++ qc :: (" and ".data ++ "trashed=false".data)))) hp
    rwa [string_mk_data] at h
  have hl1 : parseClause ("name=".data ++ qc :: (n.data ++ qc ::
        (" and ".data ++ (qc :: (p.data ++ qc :: (" in parents".data ++
          (" and ".data ++ ("mimeType=".data ++ qc ::
            (folderMime.data ++ qc :: (" and ".data ++ "trashed=false".data))))))))))
      = some (QClause.nameEq n,
          " and ".data ++ (qc :: (p.data ++ qc :: (" in parents".data ++
            (" and ".data ++ ("mimeType=".data ++ qc ::
              (folderMime.data ++ qc :: (" and ".data ++ "trashed=false".data)))))))) := by
    have h := parseClause_name n.data
      (" and ".data ++ (qc :: (p.data ++ qc :: (" in parents".data ++
        (" and ".data ++ ("mimeType=".data ++ qc ::
          (folderMime.data ++ qc :: (" and ".data ++ "trashed=false".data)))))))) hn
    rwa [string_mk_data] at h
  have hdecomp : (folderQuery n p).data
      = "name=".data ++ qc :: (n.data ++ qc ::
          (" and ".data ++ (qc :: (p.data ++ qc :: (" in parents".data ++
            (" and ".data ++ ("mimeType=".data ++ qc ::
              (folderMime.data ++ qc :: (" and ".data ++ "trashed=false".data))))))))) := by
    have hA : " in parents and mimeType=".data
        = " in parents".data ++ (" and ".data ++ "mimeType=".data) := rfl
    have hB : " and trashed=false".data = " and ".data ++ "trashed=false".data := rfl
    have hsq : sq.data = [qc] := rfl
    simp [folderQuery, String.data_append, hA, hB, hsq, List.append_assoc]
  have handne : (" and ".data : List Char) = ' ' :: "and ".data := rfl
  obtain ⟨k, hk⟩ : ∃ k, (folderQuery n p).data.length + 1 = k + 4 := by
    refine ⟨(folderQuery n p).data.length - 3, ?_⟩
    have h3 : 3 ≤ (folderQuery n p).data.length := by
      rw [hdecomp]
      simp
    omega
  simp only [parseQuery]
  rw [hk, hdecomp]
  rw [parseClauses_cons (k + 3) _ _ _ _ hl1
    (by rw [handne]; simp) (dropLit_append _ _)]
  rw [parseClauses_cons (k + 2) _ _ _ _ hl2
    (by rw [handne]; simp) (dropLit_append _ _)]
  rw [parseClauses_cons (k + 1) _ _ _ _ hl3
    (by rw [handne]; simp) (dropLit_append _ _)]
  rw [parseClauses_last k _ _ hl4]
  rfl

theorem filesList_folderQuery (n p : String) (st : DriveState)
    (hn : qc ∉ n.data) (hp : qc ∉ p.data) :
    filesList (folderQuery n p) st = some (exactMatches n p st) := by
  simp only [filesList, parseQuery_folderQuery n p hn hp, Option.map_some']
  simp only [Option.some.injEq, exactMatches]
  apply List.filter_congr
  intro f _
  cases htr : f.trashed <;> simp [matchFile, htr, Bool.and_assoc]

/-- The folder metadata `findOrCreateFolder` creates in state `st`. -/
def createdFolder (folderName parentFolderId : String) (st : DriveState) : DriveFile :=
  { id := newFolderId st, name := folderName, parents := [parentFolderId],
    mimeType := folderMime, trashed := false }

/-- The state after `findOrCreateFolder` creates a folder in state `st`. -/
def stateAfterCreate (folderName parentFolderId : String) (st : DriveState) : DriveState :=
  { files := st.files ++ [createdFolder folderName parentFolderId st],
    nextId := st.nextId + 1 }

theorem findOrCreateFolder_found (n p : String) (st : DriveState)
    (hn : qc ∉ n.data) (hp : qc ∉ p.data)
    (f : DriveFile) (fs : List DriveFile) (h : exactMatches n p st = f :: fs) :
    findOrCreateFolder n p st = .ok (f.id, st) := by
  unfold findOrCreateFolder
  rw [filesList_folderQuery n p st hn hp, h]

theorem findOrCreateFolder_missing (n p : String) (st : DriveState)
    (hn : qc ∉ n.data) (hp : qc ∉ p.data)
    (h : exactMatches n p st = []) :
    findOrCreateFolder n p st = .ok (newFolderId st, stateAfterCreate n p st) := by
  unfold findOrCreateFolder
  rw [filesList_folderQuery n p st hn hp, h]
  rfl

/-! Concrete Drive stores and names for the folder claims. -/

def stEmpty : DriveState := { files := [], nextId := 0 }

/-- A folder name containing single quotes, rendering the interpolated
search query as two name clauses: `a' and name='b`. -/
def injName : String := "a" ++ sq ++ " and name=" ++ sq ++ "b"

def injFolderA : DriveFile :=
  { id := "folder0", name := injName, parents := ["P"],
    mimeType := folderMime, trashed := false }

def injFolderB : DriveFile :=
  { id := "folder1", name := injName, parents := ["P"],
    mimeType := folderMime, trashed := false }

def injFolderDup : DriveFile :=
  { id := "folder7", name := injName, parents := ["P"],
    mimeType := folderMime, trashed := false }

def injStore : DriveState := { files := [injFolderA], nextId := 7 }

/-- C5 counterexample: with a folder name containing quote characters
(`a' and name='b`), calling `findOrCreateFolder` twice in sequence from
an empty store creates two folders and returns two different
identifiers — the interpolated query never matches the folder the first
call created. -/
theorem folder_idempotent_cex :
    findOrCreateFolder injName "P" stEmpty
        = .ok ("folder0", { files := [injFolderA], nextId := 1 })
    ∧ findOrCreateFolder injName "P" { files := [injFolderA], nextId := 1 }
        = .ok ("folder1", { files := [injFolderA, injFolderB], nextId := 2 })
    ∧ ("folder0" : String) ≠ "folder1" := by
  refine ⟨rfl, rfl, by decide⟩

/-- C5 (amended): for every folder name and parent id containing no
single-quote character, two sequential `findOrCreateFolder` calls return
the same identifier, the second call performs no create (the state is
unchanged), and the two calls together create exactly one folder when no
matching folder pre-existed and none otherwise. -/
theorem folder_idempotent (n p : String) (st : DriveState)
    (hn : qc ∉ n.data) (hp : qc ∉ p.data) :
    ∃ id1 st1,
      findOrCreateFolder n p st = .ok (id1, st1)
      ∧ findOrCreateFolder n p st1 = .ok (id1, st1)
      ∧ st1.files.length ≤ st.files.length + 1
      ∧ (exactMatches n p st = [] → st1.files.length = st.files.length + 1)
      ∧ (exactMatches n p st ≠ [] → st1 = st) := by
  cases h : exactMatches n p st with
  | cons f fs =>
    refine ⟨f.id, st, findOrCreateFolder_found n p st hn hp f fs h,
      findOrCreateFolder_found n p st hn hp f fs h, by omega, ?_, fun _ => rfl⟩
    intro hc
    exact absurd hc (List.cons_ne_nil f fs)
  | nil =>
    have h1 := findOrCreateFolder_missing n p st hn hp h
    have hmatch : exactMatches n p (stateAfterCreate n p st)
        = exactMatches n p st ++ [createdFolder n p st] := by
      simp [exactMatches, stateAfterCreate, List.filter_append, createdFolder]
    have h2 : findOrCreateFolder n p (stateAfterCreate n p st)
        = .ok ((createdFolder n p st).id, stateAfterCreate n p st) := by
      apply findOrCreateFolder_found n p _ hn hp (createdFolder n p st) []
      rw [hmatch, h]
      rfl
    refine ⟨newFolderId st, stateAfterCreate n p st, h1, h2, ?_, ?_, ?_⟩
    · simp [stateAfterCreate]
    · intro _
      simp [stateAfterCreate]
    · intro hne
      simp [h] at hne

/-- C5 witness: a concrete quote-free folder name and parent on the
empty store. -/
theorem folder_idempotent_witness :
    ∃ id1 st1,
      findOrCreateFolder "Alpha - Asana Backup" "root" stEmpty = .ok (id1, st1)
      ∧ findOrCreateFolder "Alpha - Asana Backup" "root" st1 = .ok (id1, st1)
      ∧ st1.files.length ≤ stEmpty.files.length + 1
      ∧ (exactMatches "Alpha - Asana Backup" "root" stEmpty = []
          → st1.files.length = stEmpty.files.length + 1)
      ∧ (exactMatches "Alpha - Asana Backup" "root" stEmpty ≠ [] → st1 = stEmpty) :=
  folder_idempotent "Alpha - Asana Backup" "root" stEmpty (by decide) (by decide)

/-- C6: on a store that holds a non-trashed folder whose name is
character-for-character `a' and name='b` under parent "P", the claim says
the search finds it and creates nothing; instead `findOrCreateFolder`
interpolates the name unescaped into the query, the query's two name
clauses match nothing, and the call creates a duplicate folder and
returns the new identifier. -/
theorem folder_search_injection :
    exactMatches injName "P" injStore = [injFolderA]
    ∧ findOrCreateFolder injName "P" injStore
        = .ok ("folder7", { files := [injFolderA, injFolderDup], nextId := 8 })
    ∧ ("folder7" : String) ≠ injFolderA.id := by
  refine ⟨by decide, rfl, by decide⟩

/-! ## Join/split lemmas for the tags round trip -/

/-- Character image of `", " ++ a₁ ++ ", " ++ a₂ ++ ...`. -/
def joinTail : List String → List Char
  | [] => []
  | a :: as => ',' :: ' ' :: (a.data ++ joinTail as)

theorem joinChars_cons_cons (n m : List Char) (ns : List (List Char)) :
    joinChars (n :: m :: ns) = n ++ ',' :: ' ' :: joinChars (m :: ns) := rfl

theorem intercalate_go_data (as : List String) : ∀ acc : String,
    (String.intercalate.go acc ", " as).data = acc.data ++ joinTail as := by
  induction as with
  | nil => intro acc; simp [String.intercalate.go, joinTail]
  | cons a as ih =>
    intro acc
    have hcd : (", " : String).data = [',', ' '] := rfl
    simp [String.intercalate.go, joinTail, ih, String.data_append, hcd,
          List.append_assoc]

theorem joinChars_cons_eq (as : List String) : ∀ h : List Char,
    joinChars (h :: as.map String.data) = h ++ joinTail as := by
  induction as with
  | nil => intro h; simp [joinChars, joinTail]
  | cons b bs ih =>
    intro h
    simp only [List.map_cons]
    rw [joinChars_cons_cons, ih b.data]
    rfl

theorem intercalate_data (names : List String) :
    (String.intercalate ", " names).data = joinChars (names.map String.data) := by
  cases names with
  | nil => rfl
  | cons a as =>
    rw [show String.intercalate ", " (a :: as) = String.intercalate.go a ", " as from rfl]
    rw [intercalate_go_data as a, List.map_cons, joinChars_cons_eq as a.data]

theorem hasSep_cons_false (c : Char) (rest : List Char) (h : hasSep (c :: rest) = false) :
    ¬(c = ',' ∧ rest.head? = some ' ') ∧ hasSep rest = false := by
  by_cases hc : c = ',' ∧ rest.head? = some ' '
  · simp only [hasSep, if_pos hc] at h
    cases h
  · simp only [hasSep, if_neg hc] at h
    exact ⟨hc, h⟩

theorem splitTags_sepFree (n : List Char) : ∀ acc, hasSep n = false →
    splitTags n acc = [acc ++ n] := by
  induction n with
  | nil => intro acc _; simp [splitTags]
  | cons c rest ih =>
    intro acc h
    obtain ⟨hc, hrest⟩ := hasSep_cons_false c rest h
    simp only [splitTags, if_neg hc]
    rw [ih (acc ++ [c]) hrest]
    simp

theorem splitTags_sep_split (n : List Char) : ∀ acc rest : List Char, hasSep n = false →
    splitTags (n ++ ',' :: ' ' :: rest) acc = (acc ++ n) :: splitTags rest [] := by
  induction n with
  | nil =>
    intro acc rest _
    simp only [List.nil_append, splitTags]
    rw [if_pos (by simp)]
    simp
  | cons c n' ih =>
    intro acc rest h
    obtain ⟨hc, hn'⟩ := hasSep_cons_false c n' h
    have hcond : ¬(c = ',' ∧ (n' ++ ',' :: ' ' :: rest).head? = some ' ') := by
      cases n' with
      | nil =>
        rintro ⟨h1, h2⟩
        simp at h2
      | cons d n'' =>
        simpa using hc
    simp only [List.cons_append, splitTags, if_neg hcond]
    rw [ih (acc ++ [c]) rest hn']
    simp

theorem splitTags_joinChars (names : List (List Char)) :
    (∀ n ∈ names, hasSep n = false) → names ≠ [] →
    splitTags (joinChars names) [] = names := by
  induction names with
  | nil => intro _ hne; exact absurd rfl hne
  | cons n ns ih =>
    intro hall _
    cases ns with
    | nil =>
      rw [show joinChars [n] = n from rfl]
      rw [splitTags_sepFree n [] (hall n (by simp))]
      simp
    | cons m ns' =>
      rw [joinChars_cons_cons n m ns']
      rw [splitTags_sep_split n [] _ (hall n (by simp))]
      rw [ih (fun x hx => hall x (List.mem_cons_of_mem n hx)) (by simp)]
      simp

theorem joinChars_eq_nil (names : List (List Char)) (h : joinChars names = []) :
    names = [] ∨ names = [[]] := by
  match names with
  | [] => exact Or.inl rfl
  | [n] =>
    rw [show joinChars [n] = n from rfl] at h
    exact Or.inr (by rw [h])
  | n :: m :: ns =>
    rw [joinChars_cons_cons] at h
    rcases List.append_eq_nil.mp h with ⟨_, h2⟩
    cases h2

theorem string_data_eq_nil (a : String) (h : a.data = []) : a = "" := by
  have h2 := congrArg String.mk h
  rwa [string_mk_data] at h2

/-! Concrete tasks for the round-trip claim. -/

/-- A task with the single tag name `"a, b"` (the name contains the join
separator). -/
def taskTagComma : Task :=
  { name := some "T", completed := false, completed_at := none,
    due_on := none, due_at := none, assignee := none, notes := none,
    tags := some [{ name := "a, b" }], created_at := none,
    modified_at := none, permalink_url := none }

/-- A task with the two tag names `"a"` and `"b"`. -/
def taskTagSplit : Task :=
  { name := some "T", completed := false, completed_at := none,
    due_on := none, due_at := none, assignee := none, notes := none,
    tags := some [{ name := "a" }, { name := "b" }], created_at := none,
    modified_at := none, permalink_url := none }

/-- A task with two separator-free tags and a date-only due date. -/
def taskTwoTags : Task :=
  { name := some "Ship", completed := false, completed_at := none,
    due_on := some "2026-03-01", due_at := none, assignee := none,
    notes := none, tags := some [{ name := "alpha" }, { name := "beta" }],
    created_at := none, modified_at := none, permalink_url := none }

/-- C4 counterexample: two tasks with different ordered tag lists
(`["a, b"]` and `["a", "b"]`) produce identical rows, so no inverse of
the row projection can recover the tag list — the comma-and-space join
is not invertible. -/
theorem row_roundtrip_cex :
    taskRow taskTagComma = taskRow taskTagSplit
    ∧ taskTagNames taskTagComma ≠ taskTagNames taskTagSplit := by
  decide

/-- C4 (amended): for every task whose tag names are free of the `", "`
separator and whose tag list is not the single empty name, with a
date-only due field that is nonempty when present, the concrete inverse
recovers from the produced row the task's name (absent name read back as
the empty string), its completion flag, its populated due-date value
(the date-only field when populated, else the date-time field), and its
ordered tag-name list. -/
theorem row_roundtrip (t : Task)
    (htags : ∀ n ∈ taskTagNames t, hasSep n.data = false)
    (hone : taskTagNames t ≠ [""])
    (hd : t.due_on ≠ some "") :
    recoverRowName (taskRow t) = t.name.getD ""
    ∧ recoverRowCompleted (taskRow t) = t.completed
    ∧ (∀ d, t.due_on = some d → recoverRowDue (taskRow t) = d)
    ∧ (t.due_on = none → ∀ d, t.due_at = some d → recoverRowDue (taskRow t) = d)
    ∧ recoverRowTags (taskRow t) = taskTagNames t := by
  refine ⟨?_, ?_, ?_, ?_, ?_⟩
  · show jsOr t.name "" = t.name.getD ""
    exact jsOr_empty_default _
  · show ((if t.completed then "Completed" else "Incomplete") == "Completed") = t.completed
    cases t.completed <;> decide
  · intro d hdon
    show jsOr t.due_on (jsOr t.due_at "") = d
    rw [hdon]
    have hdne : d ≠ "" := fun he => hd (by rw [hdon, he])
    simp [jsOr, hdne]
  · intro hnone d hdat
    show jsOr t.due_on (jsOr t.due_at "") = d
    rw [hnone, hdat]
    by_cases hd0 : d = "" <;> simp [jsOr, hd0]
  · show recoverTagNames (jsOr (tagsJoined t) "") = taskTagNames t
    cases htg : t.tags with
    | none => simp [tagsJoined, htg, jsOr, recoverTagNames, taskTagNames]
    | some ts =>
      have hnames : taskTagNames t = ts.map TaskTag.name := by
        simp [taskTagNames, htg]
      have hjoin : tagsJoined t
          = some (String.intercalate ", " (ts.map TaskTag.name)) := by
        simp [tagsJoined, htg]
      rw [hjoin, hnames]
      by_cases hJ : String.intercalate ", " (ts.map TaskTag.name) = ""
      · have hdata : joinChars ((ts.map TaskTag.name).map String.data) = [] := by
          rw [← intercalate_data, hJ]
        rcases joinChars_eq_nil _ hdata with h0 | h1
        · have hnil : ts.map TaskTag.name = [] := by simpa using h0
          rw [hnil, show String.intercalate ", " ([] : List String) = "" from rfl]
          simp [jsOr, recoverTagNames]
        · exfalso
          apply hone
          rw [hnames]
          cases hts : ts.map TaskTag.name with
          | nil => rw [hts] at h1; simp at h1
          | cons a as =>
            rw [hts] at h1
            simp only [List.map_cons] at h1
            obtain ⟨ha, has⟩ := List.cons.inj h1
            have ha0 : a = "" := string_data_eq_nil a ha
            have has0 : as = [] := by
              cases as with
              | nil => rfl
              | cons b bs => simp at has
            rw [ha0, has0]
      · have hnn : ts.map TaskTag.name ≠ [] := by
          intro h0
          rw [h0] at hJ
          exact hJ rfl
        have hrow : jsOr (some (String.intercalate ", " (ts.map TaskTag.name))) ""
            = String.intercalate ", " (ts.map TaskTag.name) := by
          simp [jsOr, hJ]
        rw [hrow]
        simp only [recoverTagNames, if_neg hJ]
        rw [intercalate_data]
        have hall : ∀ l ∈ (ts.map TaskTag.name).map String.data, hasSep l = false := by
          intro l hl
          rcases List.mem_map.mp hl with ⟨nm, hnm, hrfl⟩
          rw [← hrfl]
          exact htags nm (by rw [hnames]; exact hnm)
        have hne2 : (ts.map TaskTag.name).map String.data ≠ [] := by
          simpa using hnn
        rw [splitTags_joinChars _ hall hne2]
        rw [List.map_map]
        have hid : (ts.map TaskTag.name).map (String.mk ∘ String.data)
            = (ts.map TaskTag.name).map id :=
          List.map_congr_left (fun a _ => string_mk_data a)
        rw [hid, List.map_id]

/-- C4 witness: a concrete task with two separator-free tags and a
date-only due date round-trips through the row. -/
theorem row_roundtrip_witness :
    recoverRowName (taskRow taskTwoTags) = taskTwoTags.name.getD ""
    ∧ recoverRowCompleted (taskRow taskTwoTags) = taskTwoTags.completed
    ∧ (∀ d, taskTwoTags.due_on = some d → recoverRowDue (taskRow taskTwoTags) = d)
    ∧ (taskTwoTags.due_on = none →
        ∀ d, taskTwoTags.due_at = some d → recoverRowDue (taskRow taskTwoTags) = d)
    ∧ recoverRowTags (taskRow taskTwoTags) = taskTagNames taskTwoTags :=
  row_roundtrip taskTwoTags (by decide) (by decide) (by decide)
